import Mathlib

/-!
# pkg/registry/core/service/registry.go

A shallow embedding of the typed service registry adapter (`storage`), which
narrows a generic `rest.StandardStorage` handle to the `Registry` interface.

* A Go function that may abort is a Lean function into `Outcome`.
* The storage handle is stateful and external: its methods take the handle's
  own state `σ` and return the Go results together with the next state.  A call
  of a handle method by the adapter is recorded in `World.calls`.
* `glog.V(2).Infof` lines are collected in `World.log`.
-/

namespace ServiceRegistry

/-! ## Go values -/

/-- Go pointer `*α`: nil, or the address of an object together with the object
stored there. -/
inductive Ptr (α : Type) where
  | nil : Ptr α
  | ref (addr : Nat) (val : α) : Ptr α
  deriving DecidableEq, Repr

/-- Go run-time panics that the adapter can raise. -/
inductive Panic where
  /-- invalid memory address or nil pointer dereference -/
  | nilDereference : Panic
  /-- interface conversion: a failed single-value type assertion to `want` -/
  | interfaceConversion (want : String) : Panic
  deriving DecidableEq, Repr

/-- Result of running a Go function: it returns its results, or it panics. -/
inductive Outcome (α : Type) where
  | ret (v : α) : Outcome α
  | panic (p : Panic) : Outcome α
  deriving DecidableEq, Repr

/-- Go `error` values (non-nil); a nil error is `none : Option Error`. -/
inductive Error where
  /-- an error carrying only a message, as made by `fmt.Errorf` or `errors.New` -/
  | errorString (s : String) : Error
  /-- an API status error of the storage layer (not found, conflict, and so on) -/
  | statusError (code : Nat) (reason : String) (message : String) : Error
  deriving DecidableEq, Repr

/-- The error `fmt.Errorf(format)` makes for a format string without verbs. -/
def fmt.Errorf (format : String) : Error :=
  Error.errorString format

/-! ## Types of the imported packages -/

/-- Modelled from the spec: `genericapirequest.Context`, the request-scoped
context (identity, deadline, trace), opaque to the adapter. -/
structure Context where
  ns : String
  user : String
  deadline : Option Nat
  deriving DecidableEq, Repr

/-- Modelled from the spec: `metainternalversion.ListOptions`, filtering and
resource-version constraints of list and watch. -/
structure ListOptions where
  LabelSelector : String
  FieldSelector : String
  Watch : Bool
  ResourceVersion : String
  deriving DecidableEq, Repr

/-- Modelled from the spec: `metav1.GetOptions`. -/
structure GetOptions where
  ResourceVersion : String
  deriving DecidableEq, Repr

/-- Modelled from the spec: `metav1.ExportOptions`. -/
structure ExportOptions where
  Export : Bool
  Exact : Bool
  deriving DecidableEq, Repr

/-- Modelled from the spec: `metav1.DeleteOptions`. -/
structure DeleteOptions where
  GracePeriodSeconds : Option Nat
  deriving DecidableEq, Repr

/-- Modelled from the spec: `api.Service`, a named, versioned record.  The
adapter reads only `Name`. -/
structure Service where
  Name : String
  Namespace : String
  ResourceVersion : String
  ClusterIP : String
  deriving DecidableEq, Repr

/-- Modelled from the spec: `api.ServiceList`, an ordered collection of services
plus list metadata. -/
structure ServiceList where
  ResourceVersion : String
  Continue : String
  Items : List Service
  deriving DecidableEq, Repr

/-- A `runtime.Object` interface value, by dynamic type. -/
inductive Object where
  /-- the nil interface value -/
  | nil : Object
  /-- dynamic type `*api.Service` (the pointer itself may be nil) -/
  | service (p : Ptr Service) : Object
  /-- dynamic type `*api.ServiceList` (the pointer itself may be nil) -/
  | serviceList (p : Ptr ServiceList) : Object
  /-- any other dynamic type -/
  | other (typeName : String) : Object
  deriving DecidableEq, Repr

/-- A `watch.Interface` value: nil, or a live event stream. -/
inductive WatchInterface where
  | nil : WatchInterface
  | stream (id : Nat) : WatchInterface
  deriving DecidableEq, Repr

/-- A `runtime.ObjectCopier`. -/
inductive ObjectCopier where
  /-- the package-level `api.Scheme` -/
  | apiScheme : ObjectCopier
  | other (name : String) : ObjectCopier
  deriving DecidableEq, Repr

/-- The package-level variable `api.Scheme`. -/
def api.Scheme : ObjectCopier :=
  ObjectCopier.apiScheme

/-- Modelled from the spec: `rest.UpdatedObjectInfo` as made by
`rest.DefaultUpdatedObjectInfo` (not in this file): the default "replace with
this value" update descriptor, wrapping the object and the copier. -/
structure UpdatedObjectInfo where
  obj : Object
  copier : ObjectCopier
  deriving DecidableEq, Repr

/-- Modelled from the spec: `rest.DefaultUpdatedObjectInfo(obj, copier)` (not in
this file), called without transformers. -/
def rest.DefaultUpdatedObjectInfo (obj : Object) (copier : ObjectCopier) : UpdatedObjectInfo :=
  { obj := obj, copier := copier }

/-! ## The storage handle -/

/-- The method of `rest.Exporter`, for a handle whose own state is `σ`. -/
structure Exporter (σ : Type) where
  Export : σ → Context → String → ExportOptions → (Object × Option Error) × σ

/-- A non-nil `rest.StandardStorage` value: the methods of its dynamic type that
the adapter uses, for a handle whose own state is `σ`, and `asExporter`, the
result of asserting the dynamic type to `rest.Exporter`. -/
structure StandardStorage (σ : Type) where
  List : σ → Context → Ptr ListOptions → (Object × Option Error) × σ
  Create : σ → Context → Object → (Object × Option Error) × σ
  Get : σ → Context → String → Ptr GetOptions → (Object × Option Error) × σ
  Delete : σ → Context → String → Ptr DeleteOptions → (Object × Bool × Option Error) × σ
  Update : σ → Context → String → UpdatedObjectInfo → (Object × Bool × Option Error) × σ
  Watch : σ → Context → Ptr ListOptions → (WatchInterface × Option Error) × σ
  asExporter : Option (Exporter σ)

/-- The methods of the handle. -/
inductive Method where
  | List | Create | Get | Delete | Update | Watch | Export
  deriving DecidableEq, Repr

/-- One invocation of a handle method, with the arguments the handle received. -/
inductive Call where
  | List (ctx : Context) (options : Ptr ListOptions) : Call
  | Create (ctx : Context) (obj : Object) : Call
  | Get (ctx : Context) (name : String) (options : Ptr GetOptions) : Call
  | Delete (ctx : Context) (name : String) (options : Ptr DeleteOptions) : Call
  | Update (ctx : Context) (name : String) (objInfo : UpdatedObjectInfo) : Call
  | Watch (ctx : Context) (options : Ptr ListOptions) : Call
  | Export (ctx : Context) (name : String) (opts : ExportOptions) : Call
  deriving DecidableEq, Repr

/-- The method a call invoked. -/
def Call.method : Call → Method
  | Call.List _ _ => Method.List
  | Call.Create _ _ => Method.Create
  | Call.Get _ _ _ => Method.Get
  | Call.Delete _ _ _ => Method.Delete
  | Call.Update _ _ _ => Method.Update
  | Call.Watch _ _ => Method.Watch
  | Call.Export _ _ _ => Method.Export

/-- Everything outside the adapter: the state of the storage handle, the handle
methods invoked so far (oldest first), the lines written through glog (oldest
first) and glog's verbosity setting. -/
structure World (σ : Type) where
  st : σ
  calls : List Call
  log : List String
  verbosity : Nat

/-- The world after the handle served call `c` and moved to state `st`. -/
def World.invoked {σ : Type} (w : World σ) (c : Call) (st : σ) : World σ :=
  { w with st := st, calls := w.calls ++ [c] }

/-- The value of `glog.V(level)`: whether logging at `level` is enabled. -/
def glog.V {σ : Type} (w : World σ) (level : Nat) : Bool :=
  decide (level ≤ w.verbosity)

/-- The method `Infof` of a `glog.Verbose`: writes the line when enabled. -/
def glog.Infof {σ : Type} (v : Bool) (line : String) (w : World σ) : World σ :=
  if v then { w with log := w.log ++ [line] } else w

/-! ## The adapter -/

/-- The struct `storage`: the embedded `rest.StandardStorage` interface value,
which is nil (`none`) or a handle. -/
structure storage (σ : Type) where
  StandardStorage : Option (StandardStorage σ)

/-- The function `NewRegistry`. -/
def NewRegistry {σ : Type} (s : Option (StandardStorage σ)) : Outcome (storage σ) :=
  Outcome.ret { StandardStorage := s }

/-- The type assertion `obj.(*api.ServiceList)`. -/
def Object.assertServiceList : Object → Outcome (Ptr ServiceList)
  | Object.serviceList p => Outcome.ret p
  | _ => Outcome.panic (Panic.interfaceConversion "*api.ServiceList")

/-- The type assertion `obj.(*api.Service)`. -/
def Object.assertService : Object → Outcome (Ptr Service)
  | Object.service p => Outcome.ret p
  | _ => Outcome.panic (Panic.interfaceConversion "*api.Service")

/-- The statement `return obj.(*api.ServiceList), nil`. -/
def returnServiceList (obj : Object) : Outcome (Ptr ServiceList × Option Error) :=
  match obj.assertServiceList with
  | Outcome.ret p => Outcome.ret (p, none)
  | Outcome.panic e => Outcome.panic e

/-- The statement `return obj.(*api.Service), nil`. -/
def returnService (obj : Object) : Outcome (Ptr Service × Option Error) :=
  match obj.assertService with
  | Outcome.ret p => Outcome.ret (p, none)
  | Outcome.panic e => Outcome.panic e

/-- The method `ListServices`. -/
def storage.ListServices {σ : Type} (s : storage σ) (ctx : Context) (options : Ptr ListOptions)
    (w : World σ) : Outcome (Ptr ServiceList × Option Error) × World σ :=
  let w := glog.Infof (glog.V w 2) "[ListServices," w
  let deferred := glog.Infof (glog.V w 2) "ListServices]"
  match s.StandardStorage with
  | none => (Outcome.panic Panic.nilDereference, deferred w)
  | some h =>
    match h.List w.st ctx options with
    | ((obj, err), st) =>
      let w := w.invoked (Call.List ctx options) st
      match err with
      | some e => (Outcome.ret (Ptr.nil, some e), deferred w)
      | none => (returnServiceList obj, deferred w)

/-- The method `CreateService`. -/
def storage.CreateService {σ : Type} (s : storage σ) (ctx : Context) (svc : Ptr Service)
    (w : World σ) : Outcome (Ptr Service × Option Error) × World σ :=
  let w := glog.Infof (glog.V w 2) "[CreateService," w
  let deferred := glog.Infof (glog.V w 2) "CreateService]"
  match s.StandardStorage with
  | none => (Outcome.panic Panic.nilDereference, deferred w)
  | some h =>
    match h.Create w.st ctx (Object.service svc) with
    | ((obj, err), st) =>
      let w := w.invoked (Call.Create ctx (Object.service svc)) st
      match err with
      | some e => (Outcome.ret (Ptr.nil, some e), deferred w)
      | none => (returnService obj, deferred w)

/-- The method `GetService`. -/
def storage.GetService {σ : Type} (s : storage σ) (ctx : Context) (name : String)
    (options : Ptr GetOptions) (w : World σ) :
    Outcome (Ptr Service × Option Error) × World σ :=
  let w := glog.Infof (glog.V w 2) "[GetService," w
  let deferred := glog.Infof (glog.V w 2) "GetService]"
  match s.StandardStorage with
  | none => (Outcome.panic Panic.nilDereference, deferred w)
  | some h =>
    match h.Get w.st ctx name options with
    | ((obj, err), st) =>
      let w := w.invoked (Call.Get ctx name options) st
      match err with
      | some e => (Outcome.ret (Ptr.nil, some e), deferred w)
      | none => (returnService obj, deferred w)

/-- The method `DeleteService`. -/
def storage.DeleteService {σ : Type} (s : storage σ) (ctx : Context) (name : String)
    (w : World σ) : Outcome (Option Error) × World σ :=
  let w := glog.Infof (glog.V w 2) "[DeleteService," w
  let deferred := glog.Infof (glog.V w 2) "DeleteService]"
  match s.StandardStorage with
  | none => (Outcome.panic Panic.nilDereference, deferred w)
  | some h =>
    match h.Delete w.st ctx name Ptr.nil with
    | ((_, _, err), st) =>
      let w := w.invoked (Call.Delete ctx name Ptr.nil) st
      (Outcome.ret err, deferred w)

/-- The method `UpdateService`. -/
def storage.UpdateService {σ : Type} (s : storage σ) (ctx : Context) (svc : Ptr Service)
    (w : World σ) : Outcome (Ptr Service × Option Error) × World σ :=
  let w := glog.Infof (glog.V w 2) "[UpdateService," w
  let deferred := glog.Infof (glog.V w 2) "UpdateService]"
  match svc with
  | Ptr.nil => (Outcome.panic Panic.nilDereference, deferred w)
  | Ptr.ref _ v =>
    match s.StandardStorage with
    | none => (Outcome.panic Panic.nilDereference, deferred w)
    | some h =>
      let objInfo := rest.DefaultUpdatedObjectInfo (Object.service svc) api.Scheme
      match h.Update w.st ctx v.Name objInfo with
      | ((obj, _, err), st) =>
        let w := w.invoked (Call.Update ctx v.Name objInfo) st
        match err with
        | some e => (Outcome.ret (Ptr.nil, some e), deferred w)
        | none => (returnService obj, deferred w)

/-- The method `WatchServices`. -/
def storage.WatchServices {σ : Type} (s : storage σ) (ctx : Context) (options : Ptr ListOptions)
    (w : World σ) : Outcome (WatchInterface × Option Error) × World σ :=
  let w := glog.Infof (glog.V w 2) "[DeleteService," w
  let deferred := glog.Infof (glog.V w 2) "DeleteService]"
  match s.StandardStorage with
  | none => (Outcome.panic Panic.nilDereference, deferred w)
  | some h =>
    match h.Watch w.st ctx options with
    | (r, st) =>
      let w := w.invoked (Call.Watch ctx options) st
      (Outcome.ret r, deferred w)

/-- The type assertion `s.StandardStorage.(rest.Exporter)` in its two-value
form: the exporter, when the handle is not nil and its dynamic type implements
`rest.Exporter`. -/
def storage.exporter {σ : Type} (s : storage σ) : Option (Exporter σ) :=
  match s.StandardStorage with
  | none => none
  | some h => h.asExporter

/-- The method `ExportService`. -/
def storage.ExportService {σ : Type} (s : storage σ) (ctx : Context) (name : String)
    (options : ExportOptions) (w : World σ) :
    Outcome (Ptr Service × Option Error) × World σ :=
  let w := glog.Infof (glog.V w 2) "[ExportService," w
  let deferred := glog.Infof (glog.V w 2) "ExportService]"
  match s.exporter with
  | none => (Outcome.ret (Ptr.nil, some (fmt.Errorf "export is not supported")), deferred w)
  | some exporter =>
    match exporter.Export w.st ctx name options with
    | ((obj, err), st) =>
      let w := w.invoked (Call.Export ctx name options) st
      match err with
      | some e => (Outcome.ret (Ptr.nil, some e), deferred w)
      | none => (returnService obj, deferred w)

/-! ## Concrete handles and values, used to run the adapter -/

/-- A handle that answers every call with the same object, flag, watch stream
and error, counts the calls it has served in its state, and implements
`rest.Exporter` when `exports` is set. -/
def cannedStorage (obj : Object) (flag : Bool) (wi : WatchInterface) (err : Option Error)
    (exports : Bool) : StandardStorage Nat :=
  { List := fun n _ _ => ((obj, err), n + 1)
    Create := fun n _ _ => ((obj, err), n + 1)
    Get := fun n _ _ _ => ((obj, err), n + 1)
    Delete := fun n _ _ _ => ((obj, flag, err), n + 1)
    Update := fun n _ _ _ => ((obj, flag, err), n + 1)
    Watch := fun n _ _ => ((wi, err), n + 1)
    asExporter :=
      if exports then some { Export := fun n _ _ _ => ((obj, err), n + 1) } else none }

/-- A request context. -/
def ctxA : Context :=
  { ns := "default", user := "alice", deadline := some 30 }

/-- The service "svc-a". -/
def svcA : Service :=
  { Name := "svc-a", Namespace := "default", ResourceVersion := "7", ClusterIP := "10.0.0.1" }

/-- A pointer to the service "svc-a". -/
def objA : Ptr Service :=
  Ptr.ref 4096 svcA

/-- The not-found error of the storage layer for the service "missing". -/
def NotFoundError : Error :=
  Error.statusError 404 "NotFound" "service missing: not found"

/-- A fresh world around a handle with a call counter: no call served, nothing
logged, glog verbosity 2. -/
def worldZero : World Nat :=
  { st := 0, calls := [], log := [], verbosity := 2 }

/-! ## Logging and recording leave the rest of the world alone -/

@[simp]
theorem glog_Infof_st {σ : Type} (v : Bool) (line : String) (w : World σ) :
    (glog.Infof v line w).st = w.st := by
  cases v <;> rfl

@[simp]
theorem glog_Infof_calls {σ : Type} (v : Bool) (line : String) (w : World σ) :
    (glog.Infof v line w).calls = w.calls := by
  cases v <;> rfl

@[simp]
theorem glog_Infof_verbosity {σ : Type} (v : Bool) (line : String) (w : World σ) :
    (glog.Infof v line w).verbosity = w.verbosity := by
  cases v <;> rfl

@[simp]
theorem invoked_st {σ : Type} (w : World σ) (c : Call) (st : σ) :
    (w.invoked c st).st = st := rfl

@[simp]
theorem invoked_calls {σ : Type} (w : World σ) (c : Call) (st : σ) :
    (w.invoked c st).calls = w.calls ++ [c] := rfl

@[simp]
theorem returnService_service (p : Ptr Service) :
    returnService (Object.service p) = Outcome.ret (p, none) := rfl

@[simp]
theorem returnServiceList_serviceList (p : Ptr ServiceList) :
    returnServiceList (Object.serviceList p) = Outcome.ret (p, none) := rfl

theorem returnService_panic (obj : Object) (hobj : ∀ p, obj ≠ Object.service p) :
    returnService obj = Outcome.panic (Panic.interfaceConversion "*api.Service") := by
  cases obj with
  | service p => exact absurd rfl (hobj p)
  | nil => rfl
  | serviceList p => rfl
  | other t => rfl

theorem returnServiceList_panic (obj : Object) (hobj : ∀ p, obj ≠ Object.serviceList p) :
    returnServiceList obj = Outcome.panic (Panic.interfaceConversion "*api.ServiceList") := by
  cases obj with
  | serviceList p => exact absurd rfl (hobj p)
  | nil => rfl
  | service p => rfl
  | other t => rfl

/-! ## What the handle sees of each operation -/

theorem ListServices_world {σ : Type} (h : StandardStorage σ) (ctx : Context)
    (options : Ptr ListOptions) (w : World σ) :
    (storage.ListServices ⟨some h⟩ ctx options w).2.calls = w.calls ++ [Call.List ctx options]
    ∧ (storage.ListServices ⟨some h⟩ ctx options w).2.st = (h.List w.st ctx options).2 := by
  simp only [storage.ListServices]
  split <;> simp

theorem CreateService_world {σ : Type} (h : StandardStorage σ) (ctx : Context)
    (svc : Ptr Service) (w : World σ) :
    (storage.CreateService ⟨some h⟩ ctx svc w).2.calls
      = w.calls ++ [Call.Create ctx (Object.service svc)]
    ∧ (storage.CreateService ⟨some h⟩ ctx svc w).2.st
      = (h.Create w.st ctx (Object.service svc)).2 := by
  simp only [storage.CreateService]
  split <;> simp

theorem GetService_world {σ : Type} (h : StandardStorage σ) (ctx : Context) (name : String)
    (options : Ptr GetOptions) (w : World σ) :
    (storage.GetService ⟨some h⟩ ctx name options w).2.calls
      = w.calls ++ [Call.Get ctx name options]
    ∧ (storage.GetService ⟨some h⟩ ctx name options w).2.st
      = (h.Get w.st ctx name options).2 := by
  simp only [storage.GetService]
  split <;> simp

theorem DeleteService_world {σ : Type} (h : StandardStorage σ) (ctx : Context) (name : String)
    (w : World σ) :
    (storage.DeleteService ⟨some h⟩ ctx name w).2.calls
      = w.calls ++ [Call.Delete ctx name Ptr.nil]
    ∧ (storage.DeleteService ⟨some h⟩ ctx name w).2.st
      = (h.Delete w.st ctx name Ptr.nil).2 := by
  simp [storage.DeleteService]

theorem UpdateService_world {σ : Type} (h : StandardStorage σ) (ctx : Context) (addr : Nat)
    (v : Service) (w : World σ) :
    (storage.UpdateService ⟨some h⟩ ctx (Ptr.ref addr v) w).2.calls
      = w.calls ++ [Call.Update ctx v.Name
          (rest.DefaultUpdatedObjectInfo (Object.service (Ptr.ref addr v)) api.Scheme)]
    ∧ (storage.UpdateService ⟨some h⟩ ctx (Ptr.ref addr v) w).2.st
      = (h.Update w.st ctx v.Name
          (rest.DefaultUpdatedObjectInfo (Object.service (Ptr.ref addr v)) api.Scheme)).2 := by
  simp only [storage.UpdateService]
  split <;> simp

theorem UpdateService_nil {σ : Type} (s : storage σ) (ctx : Context) (w : World σ) :
    (s.UpdateService ctx Ptr.nil w).1 = Outcome.panic Panic.nilDereference
    ∧ (s.UpdateService ctx Ptr.nil w).2.calls = w.calls
    ∧ (s.UpdateService ctx Ptr.nil w).2.st = w.st := by
  simp [storage.UpdateService]

theorem WatchServices_world {σ : Type} (h : StandardStorage σ) (ctx : Context)
    (options : Ptr ListOptions) (w : World σ) :
    (storage.WatchServices ⟨some h⟩ ctx options w).2.calls
      = w.calls ++ [Call.Watch ctx options]
    ∧ (storage.WatchServices ⟨some h⟩ ctx options w).2.st = (h.Watch w.st ctx options).2 := by
  simp [storage.WatchServices]

theorem ExportService_world {σ : Type} (s : storage σ) (exporter : Exporter σ)
    (hex : s.exporter = some exporter) (ctx : Context) (name : String)
    (options : ExportOptions) (w : World σ) :
    (s.ExportService ctx name options w).2.calls = w.calls ++ [Call.Export ctx name options]
    ∧ (s.ExportService ctx name options w).2.st
      = (exporter.Export w.st ctx name options).2 := by
  simp only [storage.ExportService, hex]
  split <;> simp

theorem ExportService_unsupported {σ : Type} (s : storage σ) (hex : s.exporter = none)
    (ctx : Context) (name : String) (options : ExportOptions) (w : World σ) :
    (s.ExportService ctx name options w).1
      = Outcome.ret (Ptr.nil, some (fmt.Errorf "export is not supported"))
    ∧ (s.ExportService ctx name options w).2.calls = w.calls
    ∧ (s.ExportService ctx name options w).2.st = w.st := by
  simp [storage.ExportService, hex]

/-! ## The export capability -/

/-- C1: ExportService returns the adapter's own error, the pair (nil, "export is
not supported") made without consulting the handle, if and only if the handle
does not implement the Exporter capability; when the handle implements it,
ExportService returns exactly the error of the delegate's Export call on
failure, and exactly its service on success. -/
theorem ExportService_unsupported_iff {σ : Type} (s : storage σ) (ctx : Context) (name : String)
    (options : ExportOptions) (w : World σ) :
    (((s.ExportService ctx name options w).1
          = Outcome.ret (Ptr.nil, some (fmt.Errorf "export is not supported"))
        ∧ (s.ExportService ctx name options w).2.calls = w.calls)
      ↔ s.exporter = none)
    ∧ (∀ exporter : Exporter σ, s.exporter = some exporter →
        (∀ (obj : Object) (e : Error) (st : σ),
            exporter.Export w.st ctx name options = ((obj, some e), st) →
            (s.ExportService ctx name options w).1 = Outcome.ret (Ptr.nil, some e))
        ∧ (∀ (p : Ptr Service) (st : σ),
            exporter.Export w.st ctx name options = ((Object.service p, none), st) →
            (s.ExportService ctx name options w).1 = Outcome.ret (p, none))) := by
  refine ⟨⟨?_, ?_⟩, ?_⟩
  · rintro ⟨-, hcalls⟩
    cases hex : s.exporter with
    | none => rfl
    | some exporter =>
      exfalso
      rw [(ExportService_world s exporter hex ctx name options w).1] at hcalls
      simp at hcalls
  · intro hex
    exact ⟨(ExportService_unsupported s hex ctx name options w).1,
      (ExportService_unsupported s hex ctx name options w).2.1⟩
  · intro exporter hex
    refine ⟨?_, ?_⟩
    · intro obj e st hE
      simp [storage.ExportService, hex, hE]
    · intro p st hE
      simp [storage.ExportService, hex, hE]

/-- Witness of C1: a handle without the capability gets the adapter's own
error and serves no call; the same handle with the capability has the result of
its Export call returned. -/
theorem ExportService_unsupported_iff_witness :
    ((storage.mk (some (cannedStorage (Object.service objA) false WatchInterface.nil none false))).exporter
          = none
        ∧ (storage.ExportService
              ⟨some (cannedStorage (Object.service objA) false WatchInterface.nil none false)⟩
              ctxA "svc-a" ⟨true, false⟩ worldZero).1
            = Outcome.ret (Ptr.nil, some (Error.errorString "export is not supported"))
        ∧ (storage.ExportService
              ⟨some (cannedStorage (Object.service objA) false WatchInterface.nil none false)⟩
              ctxA "svc-a" ⟨true, false⟩ worldZero).2.calls = [])
    ∧ (storage.ExportService
          ⟨some (cannedStorage (Object.service objA) false WatchInterface.nil none true)⟩
          ctxA "svc-a" ⟨true, false⟩ worldZero).1 = Outcome.ret (objA, none) :=
  ⟨⟨rfl,
    ((ExportService_unsupported_iff
      ⟨some (cannedStorage (Object.service objA) false WatchInterface.nil none false)⟩
      ctxA "svc-a" ⟨true, false⟩ worldZero).1.2 rfl).1,
    ((ExportService_unsupported_iff
      ⟨some (cannedStorage (Object.service objA) false WatchInterface.nil none false)⟩
      ctxA "svc-a" ⟨true, false⟩ worldZero).1.2 rfl).2⟩,
   ((ExportService_unsupported_iff
      ⟨some (cannedStorage (Object.service objA) false WatchInterface.nil none true)⟩
      ctxA "svc-a" ⟨true, false⟩ worldZero).2 _ rfl).2 objA 1 rfl⟩

/-! ## Errors and results of the delegated calls -/

/-- C2: for each of the seven operations, when the delegated storage call
returns a non-nil error e, the adapter returns (it does not abort) and the error
it returns is that same e. -/
theorem delegated_error_unchanged {σ : Type} (h : StandardStorage σ) (ctx : Context)
    (w : World σ) (e : Error) :
    (∀ (options : Ptr ListOptions) (obj : Object) (st : σ),
        h.List w.st ctx options = ((obj, some e), st) →
        ∃ v, (storage.ListServices ⟨some h⟩ ctx options w).1 = Outcome.ret (v, some e))
    ∧ (∀ (svc : Ptr Service) (obj : Object) (st : σ),
        h.Create w.st ctx (Object.service svc) = ((obj, some e), st) →
        ∃ v, (storage.CreateService ⟨some h⟩ ctx svc w).1 = Outcome.ret (v, some e))
    ∧ (∀ (name : String) (options : Ptr GetOptions) (obj : Object) (st : σ),
        h.Get w.st ctx name options = ((obj, some e), st) →
        ∃ v, (storage.GetService ⟨some h⟩ ctx name options w).1 = Outcome.ret (v, some e))
    ∧ (∀ (name : String) (obj : Object) (deleted : Bool) (st : σ),
        h.Delete w.st ctx name Ptr.nil = ((obj, deleted, some e), st) →
        (storage.DeleteService ⟨some h⟩ ctx name w).1 = Outcome.ret (some e))
    ∧ (∀ (addr : Nat) (svc : Service) (obj : Object) (created : Bool) (st : σ),
        h.Update w.st ctx svc.Name
            (rest.DefaultUpdatedObjectInfo (Object.service (Ptr.ref addr svc)) api.Scheme)
          = ((obj, created, some e), st) →
        ∃ v, (storage.UpdateService ⟨some h⟩ ctx (Ptr.ref addr svc) w).1
          = Outcome.ret (v, some e))
    ∧ (∀ (options : Ptr ListOptions) (wi : WatchInterface) (st : σ),
        h.Watch w.st ctx options = ((wi, some e), st) →
        ∃ v, (storage.WatchServices ⟨some h⟩ ctx options w).1 = Outcome.ret (v, some e))
    ∧ (∀ (exporter : Exporter σ) (name : String) (options : ExportOptions) (obj : Object)
        (st : σ), h.asExporter = some exporter →
        exporter.Export w.st ctx name options = ((obj, some e), st) →
        ∃ v, (storage.ExportService ⟨some h⟩ ctx name options w).1
          = Outcome.ret (v, some e)) := by
  refine ⟨?_, ?_, ?_, ?_, ?_, ?_, ?_⟩
  · intro options obj st hd
    exact ⟨Ptr.nil, by simp [storage.ListServices, hd]⟩
  · intro svc obj st hd
    exact ⟨Ptr.nil, by simp [storage.CreateService, hd]⟩
  · intro name options obj st hd
    exact ⟨Ptr.nil, by simp [storage.GetService, hd]⟩
  · intro name obj deleted st hd
    simp [storage.DeleteService, hd]
  · intro addr svc obj created st hd
    exact ⟨Ptr.nil, by simp [storage.UpdateService, hd]⟩
  · intro options wi st hd
    exact ⟨wi, by simp [storage.WatchServices, hd]⟩
  · intro exporter name options obj st hex hd
    exact ⟨Ptr.nil, by simp [storage.ExportService, storage.exporter, hex, hd]⟩

/-- Witness of C2: GetService of "missing", the delegate returning
(nil, NotFoundError), returns NotFoundError. -/
theorem delegated_error_unchanged_witness :
    (cannedStorage Object.nil false WatchInterface.nil (some NotFoundError) false).Get
        worldZero.st ctxA "missing" Ptr.nil = ((Object.nil, some NotFoundError), 1)
    ∧ ∃ v, (storage.GetService
          ⟨some (cannedStorage Object.nil false WatchInterface.nil (some NotFoundError) false)⟩
          ctxA "missing" Ptr.nil worldZero).1 = Outcome.ret (v, some NotFoundError) :=
  ⟨rfl, (delegated_error_unchanged
      (cannedStorage Object.nil false WatchInterface.nil (some NotFoundError) false)
      ctxA worldZero NotFoundError).2.2.1 "missing" Ptr.nil Object.nil 1 rfl⟩

/-- C3: when the delegated call returns (obj, nil) with obj of the expected
concrete type, the adapter returns (obj, nil) with that very pointer:
ServiceList for ListServices; Service for CreateService, GetService,
UpdateService and ExportService.  WatchServices returns exactly the pair the
delegate's Watch returned. -/
theorem delegated_result_unchanged {σ : Type} (h : StandardStorage σ) (ctx : Context)
    (w : World σ) :
    (∀ (options : Ptr ListOptions) (p : Ptr ServiceList) (st : σ),
        h.List w.st ctx options = ((Object.serviceList p, none), st) →
        (storage.ListServices ⟨some h⟩ ctx options w).1 = Outcome.ret (p, none))
    ∧ (∀ (svc : Ptr Service) (p : Ptr Service) (st : σ),
        h.Create w.st ctx (Object.service svc) = ((Object.service p, none), st) →
        (storage.CreateService ⟨some h⟩ ctx svc w).1 = Outcome.ret (p, none))
    ∧ (∀ (name : String) (options : Ptr GetOptions) (p : Ptr Service) (st : σ),
        h.Get w.st ctx name options = ((Object.service p, none), st) →
        (storage.GetService ⟨some h⟩ ctx name options w).1 = Outcome.ret (p, none))
    ∧ (∀ (addr : Nat) (svc : Service) (p : Ptr Service) (created : Bool) (st : σ),
        h.Update w.st ctx svc.Name
            (rest.DefaultUpdatedObjectInfo (Object.service (Ptr.ref addr svc)) api.Scheme)
          = ((Object.service p, created, none), st) →
        (storage.UpdateService ⟨some h⟩ ctx (Ptr.ref addr svc) w).1 = Outcome.ret (p, none))
    ∧ (∀ (exporter : Exporter σ) (name : String) (options : ExportOptions) (p : Ptr Service)
        (st : σ), h.asExporter = some exporter →
        exporter.Export w.st ctx name options = ((Object.service p, none), st) →
        (storage.ExportService ⟨some h⟩ ctx name options w).1 = Outcome.ret (p, none))
    ∧ (∀ (options : Ptr ListOptions) (wi : WatchInterface) (err : Option Error) (st : σ),
        h.Watch w.st ctx options = ((wi, err), st) →
        (storage.WatchServices ⟨some h⟩ ctx options w).1 = Outcome.ret (wi, err)) := by
  refine ⟨?_, ?_, ?_, ?_, ?_, ?_⟩
  · intro options p st hd
    simp [storage.ListServices, hd]
  · intro svc p st hd
    simp [storage.CreateService, hd]
  · intro name options p st hd
    simp [storage.GetService, hd]
  · intro addr svc p created st hd
    simp [storage.UpdateService, hd]
  · intro exporter name options p st hex hd
    simp [storage.ExportService, storage.exporter, hex, hd]
  · intro options wi err st hd
    simp [storage.WatchServices, hd]

/-- Witness of C3: GetService of "svc-a", the delegate returning (objA, nil),
returns (objA, nil). -/
theorem delegated_result_unchanged_witness :
    (cannedStorage (Object.service objA) false WatchInterface.nil none false).Get
        worldZero.st ctxA "svc-a" Ptr.nil = ((Object.service objA, none), 1)
    ∧ (storage.GetService
          ⟨some (cannedStorage (Object.service objA) false WatchInterface.nil none false)⟩
          ctxA "svc-a" Ptr.nil worldZero).1 = Outcome.ret (objA, none) :=
  ⟨rfl, (delegated_result_unchanged
      (cannedStorage (Object.service objA) false WatchInterface.nil none false)
      ctxA worldZero).2.2.1 "svc-a" Ptr.nil objA 1 rfl⟩

/-- C10: on a delegated error the typed operations drop the delegate's object:
when the delegate returns (obj, e) with e non-nil, ListServices, CreateService,
GetService, UpdateService and ExportService return (nil, e) for every obj, of
the right type, of a wrong type or nil, and no type assertion aborts them;
WatchServices returns the delegate's watch handle along with the error. -/
theorem delegated_error_drops_object {σ : Type} (h : StandardStorage σ) (ctx : Context)
    (w : World σ) (obj : Object) (e : Error) :
    (∀ (options : Ptr ListOptions) (st : σ),
        h.List w.st ctx options = ((obj, some e), st) →
        (storage.ListServices ⟨some h⟩ ctx options w).1 = Outcome.ret (Ptr.nil, some e))
    ∧ (∀ (svc : Ptr Service) (st : σ),
        h.Create w.st ctx (Object.service svc) = ((obj, some e), st) →
        (storage.CreateService ⟨some h⟩ ctx svc w).1 = Outcome.ret (Ptr.nil, some e))
    ∧ (∀ (name : String) (options : Ptr GetOptions) (st : σ),
        h.Get w.st ctx name options = ((obj, some e), st) →
        (storage.GetService ⟨some h⟩ ctx name options w).1 = Outcome.ret (Ptr.nil, some e))
    ∧ (∀ (addr : Nat) (svc : Service) (created : Bool) (st : σ),
        h.Update w.st ctx svc.Name
            (rest.DefaultUpdatedObjectInfo (Object.service (Ptr.ref addr svc)) api.Scheme)
          = ((obj, created, some e), st) →
        (storage.UpdateService ⟨some h⟩ ctx (Ptr.ref addr svc) w).1
          = Outcome.ret (Ptr.nil, some e))
    ∧ (∀ (exporter : Exporter σ) (name : String) (options : ExportOptions) (st : σ),
        h.asExporter = some exporter →
        exporter.Export w.st ctx name options = ((obj, some e), st) →
        (storage.ExportService ⟨some h⟩ ctx name options w).1
          = Outcome.ret (Ptr.nil, some e))
    ∧ (∀ (options : Ptr ListOptions) (wi : WatchInterface) (st : σ),
        h.Watch w.st ctx options = ((wi, some e), st) →
        (storage.WatchServices ⟨some h⟩ ctx options w).1 = Outcome.ret (wi, some e)) := by
  refine ⟨?_, ?_, ?_, ?_, ?_, ?_⟩
  · intro options st hd
    simp [storage.ListServices, hd]
  · intro svc st hd
    simp [storage.CreateService, hd]
  · intro name options st hd
    simp [storage.GetService, hd]
  · intro addr svc created st hd
    simp [storage.UpdateService, hd]
  · intro exporter name options st hex hd
    simp [storage.ExportService, storage.exporter, hex, hd]
  · intro options wi st hd
    simp [storage.WatchServices, hd]

/-- Witness of C10: the delegate answers with an object of a wrong type and a
conflict error; ListServices returns (nil, error) and WatchServices returns the
delegate's stream with the error. -/
theorem delegated_error_drops_object_witness :
    ((cannedStorage (Object.other "*api.Pod") true (WatchInterface.stream 5)
          (some (Error.statusError 409 "Conflict" "conflict")) true).List
        worldZero.st ctxA Ptr.nil
        = ((Object.other "*api.Pod", some (Error.statusError 409 "Conflict" "conflict")), 1)
      ∧ (storage.ListServices
          ⟨some (cannedStorage (Object.other "*api.Pod") true (WatchInterface.stream 5)
            (some (Error.statusError 409 "Conflict" "conflict")) true)⟩
          ctxA Ptr.nil worldZero).1
        = Outcome.ret (Ptr.nil, some (Error.statusError 409 "Conflict" "conflict")))
    ∧ (storage.WatchServices
          ⟨some (cannedStorage (Object.other "*api.Pod") true (WatchInterface.stream 5)
            (some (Error.statusError 409 "Conflict" "conflict")) true)⟩
          ctxA Ptr.nil worldZero).1
        = Outcome.ret (WatchInterface.stream 5,
            some (Error.statusError 409 "Conflict" "conflict")) :=
  ⟨⟨rfl, (delegated_error_drops_object
      (cannedStorage (Object.other "*api.Pod") true (WatchInterface.stream 5)
        (some (Error.statusError 409 "Conflict" "conflict")) true)
      ctxA worldZero (Object.other "*api.Pod")
      (Error.statusError 409 "Conflict" "conflict")).1 Ptr.nil 1 rfl⟩,
   (delegated_error_drops_object
      (cannedStorage (Object.other "*api.Pod") true (WatchInterface.stream 5)
        (some (Error.statusError 409 "Conflict" "conflict")) true)
      ctxA worldZero (Object.other "*api.Pod")
      (Error.statusError 409 "Conflict" "conflict")).2.2.2.2.2
      Ptr.nil (WatchInterface.stream 5) 1 rfl⟩

/-- C6: a failed type assertion is fatal: when the delegate returns a nil error
with an object that is not of the expected concrete type (the nil interface
value included), ListServices, CreateService, GetService, UpdateService and
ExportService abort with an interface-conversion panic and return no pair. -/
theorem type_assertion_failure_panics {σ : Type} (h : StandardStorage σ) (ctx : Context)
    (w : World σ) (obj : Object) :
    ((∀ p, obj ≠ Object.serviceList p) →
      ∀ (options : Ptr ListOptions) (st : σ),
        h.List w.st ctx options = ((obj, none), st) →
        (storage.ListServices ⟨some h⟩ ctx options w).1
            = Outcome.panic (Panic.interfaceConversion "*api.ServiceList")
          ∧ ∀ r, (storage.ListServices ⟨some h⟩ ctx options w).1 ≠ Outcome.ret r)
    ∧ ((∀ p, obj ≠ Object.service p) →
      (∀ (svc : Ptr Service) (st : σ),
        h.Create w.st ctx (Object.service svc) = ((obj, none), st) →
        (storage.CreateService ⟨some h⟩ ctx svc w).1
            = Outcome.panic (Panic.interfaceConversion "*api.Service")
          ∧ ∀ r, (storage.CreateService ⟨some h⟩ ctx svc w).1 ≠ Outcome.ret r)
      ∧ (∀ (name : String) (options : Ptr GetOptions) (st : σ),
        h.Get w.st ctx name options = ((obj, none), st) →
        (storage.GetService ⟨some h⟩ ctx name options w).1
            = Outcome.panic (Panic.interfaceConversion "*api.Service")
          ∧ ∀ r, (storage.GetService ⟨some h⟩ ctx name options w).1 ≠ Outcome.ret r)
      ∧ (∀ (addr : Nat) (svc : Service) (created : Bool) (st : σ),
        h.Update w.st ctx svc.Name
            (rest.DefaultUpdatedObjectInfo (Object.service (Ptr.ref addr svc)) api.Scheme)
          = ((obj, created, none), st) →
        (storage.UpdateService ⟨some h⟩ ctx (Ptr.ref addr svc) w).1
            = Outcome.panic (Panic.interfaceConversion "*api.Service")
          ∧ ∀ r, (storage.UpdateService ⟨some h⟩ ctx (Ptr.ref addr svc) w).1 ≠ Outcome.ret r)
      ∧ (∀ (exporter : Exporter σ) (name : String) (options : ExportOptions) (st : σ),
        h.asExporter = some exporter →
        exporter.Export w.st ctx name options = ((obj, none), st) →
        (storage.ExportService ⟨some h⟩ ctx name options w).1
            = Outcome.panic (Panic.interfaceConversion "*api.Service")
          ∧ ∀ r, (storage.ExportService ⟨some h⟩ ctx name options w).1 ≠ Outcome.ret r)) := by
  refine ⟨?_, ?_⟩
  · intro hobj options st hd
    have hp := returnServiceList_panic obj hobj
    have hq : (storage.ListServices ⟨some h⟩ ctx options w).1
        = Outcome.panic (Panic.interfaceConversion "*api.ServiceList") := by
      simp [storage.ListServices, hd, hp]
    exact ⟨hq, fun r hr => by rw [hq] at hr; cases hr⟩
  · intro hobj
    have hp := returnService_panic obj hobj
    refine ⟨?_, ?_, ?_, ?_⟩
    · intro svc st hd
      have hq : (storage.CreateService ⟨some h⟩ ctx svc w).1
          = Outcome.panic (Panic.interfaceConversion "*api.Service") := by
        simp [storage.CreateService, hd, hp]
      exact ⟨hq, fun r hr => by rw [hq] at hr; cases hr⟩
    · intro name options st hd
      have hq : (storage.GetService ⟨some h⟩ ctx name options w).1
          = Outcome.panic (Panic.interfaceConversion "*api.Service") := by
        simp [storage.GetService, hd, hp]
      exact ⟨hq, fun r hr => by rw [hq] at hr; cases hr⟩
    · intro addr svc created st hd
      have hq : (storage.UpdateService ⟨some h⟩ ctx (Ptr.ref addr svc) w).1
          = Outcome.panic (Panic.interfaceConversion "*api.Service") := by
        simp [storage.UpdateService, hd, hp]
      exact ⟨hq, fun r hr => by rw [hq] at hr; cases hr⟩
    · intro exporter name options st hex hd
      have hq : (storage.ExportService ⟨some h⟩ ctx name options w).1
          = Outcome.panic (Panic.interfaceConversion "*api.Service") := by
        simp [storage.ExportService, storage.exporter, hex, hd, hp]
      exact ⟨hq, fun r hr => by rw [hq] at hr; cases hr⟩

/-- Witness of C6: the delegate's Get returns the nil interface value with a nil
error, and GetService aborts. -/
theorem type_assertion_failure_panics_witness :
    (cannedStorage Object.nil false WatchInterface.nil none false).Get
        worldZero.st ctxA "svc-a" Ptr.nil = ((Object.nil, none), 1)
    ∧ (storage.GetService
          ⟨some (cannedStorage Object.nil false WatchInterface.nil none false)⟩
          ctxA "svc-a" Ptr.nil worldZero).1
        = Outcome.panic (Panic.interfaceConversion "*api.Service") :=
  ⟨rfl, (((type_assertion_failure_panics
      (cannedStorage Object.nil false WatchInterface.nil none false)
      ctxA worldZero Object.nil).2 (fun _ hne => Object.noConfusion hne)).2.1
      "svc-a" Ptr.nil 1 rfl).1⟩

/-! ## Delete and update -/

/-- C4: DeleteService calls the delegate's Delete once with the caller's context
and name and with nil delete options, and returns exactly the delegate's error
(nil exactly when the delegate's error is nil); the delegate's object and its
deleted-immediately flag are discarded: any other delegate whose Delete returns
the same error with a different object or flag makes DeleteService return the
same. -/
theorem DeleteService_returns_only_error {σ : Type} (h : StandardStorage σ) (ctx : Context)
    (name : String) (w : World σ) (obj : Object) (deleted : Bool) (err : Option Error) (st : σ)
    (hd : h.Delete w.st ctx name Ptr.nil = ((obj, deleted, err), st)) :
    (storage.DeleteService ⟨some h⟩ ctx name w).2.calls
        = w.calls ++ [Call.Delete ctx name Ptr.nil]
    ∧ (storage.DeleteService ⟨some h⟩ ctx name w).2.st = st
    ∧ (storage.DeleteService ⟨some h⟩ ctx name w).1 = Outcome.ret err
    ∧ ((storage.DeleteService ⟨some h⟩ ctx name w).1 = Outcome.ret none ↔ err = none)
    ∧ (∀ (h2 : StandardStorage σ) (obj2 : Object) (deleted2 : Bool) (st2 : σ),
        h2.Delete w.st ctx name Ptr.nil = ((obj2, deleted2, err), st2) →
        (storage.DeleteService ⟨some h2⟩ ctx name w).1
          = (storage.DeleteService ⟨some h⟩ ctx name w).1) := by
  have hret : (storage.DeleteService ⟨some h⟩ ctx name w).1 = Outcome.ret err := by
    simp [storage.DeleteService, hd]
  refine ⟨(DeleteService_world h ctx name w).1, ?_, hret, ?_, ?_⟩
  · rw [(DeleteService_world h ctx name w).2, hd]
  · rw [hret]
    constructor
    · intro hr
      cases hr
      rfl
    · intro he
      rw [he]
  · intro h2 obj2 deleted2 st2 hd2
    rw [hret]
    simp [storage.DeleteService, hd2]

/-- Witness of C4: the delegate's Delete returns an object, the flag and no
error; DeleteService returns nil and the delegate saw (ctx, "svc-a", nil). -/
theorem DeleteService_returns_only_error_witness :
    (cannedStorage (Object.service objA) true WatchInterface.nil none false).Delete
        worldZero.st ctxA "svc-a" Ptr.nil = ((Object.service objA, true, none), 1)
    ∧ (storage.DeleteService
          ⟨some (cannedStorage (Object.service objA) true WatchInterface.nil none false)⟩
          ctxA "svc-a" worldZero).2.calls = worldZero.calls ++ [Call.Delete ctxA "svc-a" Ptr.nil]
    ∧ (storage.DeleteService
          ⟨some (cannedStorage (Object.service objA) true WatchInterface.nil none false)⟩
          ctxA "svc-a" worldZero).1 = Outcome.ret none :=
  ⟨rfl,
   (DeleteService_returns_only_error
      (cannedStorage (Object.service objA) true WatchInterface.nil none false)
      ctxA "svc-a" worldZero (Object.service objA) true none 1 rfl).1,
   (DeleteService_returns_only_error
      (cannedStorage (Object.service objA) true WatchInterface.nil none false)
      ctxA "svc-a" worldZero (Object.service objA) true none 1 rfl).2.2.1⟩

/-- C5: for a service object svc, UpdateService calls the delegate's Update once
with target name svc.Name and with the default update descriptor made from svc
itself and the scheme; it discards the delegate's created flag and, on success,
returns the delegate's object asserted to Service. -/
theorem UpdateService_replaces_by_name {σ : Type} (h : StandardStorage σ) (ctx : Context)
    (addr : Nat) (svc : Service) (w : World σ) :
    (storage.UpdateService ⟨some h⟩ ctx (Ptr.ref addr svc) w).2.calls
        = w.calls ++ [Call.Update ctx svc.Name
            (rest.DefaultUpdatedObjectInfo (Object.service (Ptr.ref addr svc)) api.Scheme)]
    ∧ (rest.DefaultUpdatedObjectInfo (Object.service (Ptr.ref addr svc)) api.Scheme).obj
        = Object.service (Ptr.ref addr svc)
    ∧ (∀ (p : Ptr Service) (created : Bool) (st : σ),
        h.Update w.st ctx svc.Name
            (rest.DefaultUpdatedObjectInfo (Object.service (Ptr.ref addr svc)) api.Scheme)
          = ((Object.service p, created, none), st) →
        (storage.UpdateService ⟨some h⟩ ctx (Ptr.ref addr svc) w).1 = Outcome.ret (p, none)
        ∧ (storage.UpdateService ⟨some h⟩ ctx (Ptr.ref addr svc) w).2.st = st) := by
  refine ⟨(UpdateService_world h ctx addr svc w).1, rfl, ?_⟩
  intro p created st hd
  refine ⟨by simp [storage.UpdateService, hd], ?_⟩
  rw [(UpdateService_world h ctx addr svc w).2, hd]

/-- Witness of C5: updating "svc-a" calls Update with the name "svc-a" and the
descriptor of that object, and returns the delegate's service although the
delegate reports created. -/
theorem UpdateService_replaces_by_name_witness :
    (storage.UpdateService
        ⟨some (cannedStorage (Object.service objA) true WatchInterface.nil none false)⟩
        ctxA objA worldZero).2.calls
      = [Call.Update ctxA "svc-a"
          { obj := Object.service objA, copier := ObjectCopier.apiScheme }]
    ∧ (storage.UpdateService
        ⟨some (cannedStorage (Object.service objA) true WatchInterface.nil none false)⟩
        ctxA objA worldZero).1 = Outcome.ret (objA, none) :=
  ⟨(UpdateService_replaces_by_name
      (cannedStorage (Object.service objA) true WatchInterface.nil none false)
      ctxA 4096 svcA worldZero).1,
   ((UpdateService_replaces_by_name
      (cannedStorage (Object.service objA) true WatchInterface.nil none false)
      ctxA 4096 svcA worldZero).2.2 objA true 1 rfl).1⟩

/-! ## Arguments and number of delegated calls -/

/-- C8: arguments are passed through unmodified: the one call the delegate
receives carries exactly the caller's context, name and options (ListOptions
for ListServices and WatchServices, GetOptions for GetService, ExportOptions for
ExportService) and service object (CreateService), and the delegate's state
moves as that method does on those arguments. -/
theorem arguments_passed_unmodified {σ : Type} (h : StandardStorage σ) (ctx : Context)
    (w : World σ) :
    (∀ options : Ptr ListOptions,
        (storage.ListServices ⟨some h⟩ ctx options w).2.calls
            = w.calls ++ [Call.List ctx options]
          ∧ (storage.ListServices ⟨some h⟩ ctx options w).2.st
            = (h.List w.st ctx options).2)
    ∧ (∀ svc : Ptr Service,
        (storage.CreateService ⟨some h⟩ ctx svc w).2.calls
            = w.calls ++ [Call.Create ctx (Object.service svc)]
          ∧ (storage.CreateService ⟨some h⟩ ctx svc w).2.st
            = (h.Create w.st ctx (Object.service svc)).2)
    ∧ (∀ (name : String) (options : Ptr GetOptions),
        (storage.GetService ⟨some h⟩ ctx name options w).2.calls
            = w.calls ++ [Call.Get ctx name options]
          ∧ (storage.GetService ⟨some h⟩ ctx name options w).2.st
            = (h.Get w.st ctx name options).2)
    ∧ (∀ options : Ptr ListOptions,
        (storage.WatchServices ⟨some h⟩ ctx options w).2.calls
            = w.calls ++ [Call.Watch ctx options]
          ∧ (storage.WatchServices ⟨some h⟩ ctx options w).2.st
            = (h.Watch w.st ctx options).2)
    ∧ (∀ (exporter : Exporter σ) (name : String) (options : ExportOptions),
        h.asExporter = some exporter →
        (storage.ExportService ⟨some h⟩ ctx name options w).2.calls
            = w.calls ++ [Call.Export ctx name options]
          ∧ (storage.ExportService ⟨some h⟩ ctx name options w).2.st
            = (exporter.Export w.st ctx name options).2) :=
  ⟨fun options => ListServices_world h ctx options w,
   fun svc => CreateService_world h ctx svc w,
   fun name options => GetService_world h ctx name options w,
   fun options => WatchServices_world h ctx options w,
   fun exporter name options hex =>
     ExportService_world ⟨some h⟩ exporter hex ctx name options w⟩

/-- Witness of C8: an exporting delegate receives the caller's context, name
and export options. -/
theorem arguments_passed_unmodified_witness :
    (cannedStorage (Object.service objA) false WatchInterface.nil none true).asExporter.isSome
        = true
    ∧ (storage.ExportService
          ⟨some (cannedStorage (Object.service objA) false WatchInterface.nil none true)⟩
          ctxA "svc-a" ⟨true, true⟩ worldZero).2.calls
        = [Call.Export ctxA "svc-a" ⟨true, true⟩] :=
  ⟨rfl, ((arguments_passed_unmodified
      (cannedStorage (Object.service objA) false WatchInterface.nil none true)
      ctxA worldZero).2.2.2.2 _ "svc-a" ⟨true, true⟩ rfl).1⟩

/-- Counterexample to C9: UpdateService with a nil service pointer is a second
exception.  On a handle that answers every call, it aborts on reading svc.Name
and invokes no delegate method: no call is recorded and the handle's call
counter stays 0. -/
theorem UpdateService_nil_invokes_nothing :
    (storage.UpdateService
        ⟨some (cannedStorage (Object.service objA) false WatchInterface.nil none true)⟩
        ctxA Ptr.nil worldZero).1 = Outcome.panic Panic.nilDereference
    ∧ (storage.UpdateService
        ⟨some (cannedStorage (Object.service objA) false WatchInterface.nil none true)⟩
        ctxA Ptr.nil worldZero).2.calls = []
    ∧ (storage.UpdateService
        ⟨some (cannedStorage (Object.service objA) false WatchInterface.nil none true)⟩
        ctxA Ptr.nil worldZero).2.st = 0
    ∧ ¬ ∃ c : Call, (storage.UpdateService
        ⟨some (cannedStorage (Object.service objA) false WatchInterface.nil none true)⟩
        ctxA Ptr.nil worldZero).2.calls = worldZero.calls ++ [c] :=
  ⟨rfl, rfl, rfl, fun ⟨_, hc⟩ => List.noConfusion hc⟩

/-- C9, amended: on an adapter over a handle, every operation invokes exactly one
delegate method exactly once (List, Create, Get, Delete, Update, Watch or Export
respectively), whatever the delegate returns, with two exceptions that invoke
no delegate method: ExportService on a handle without the export capability,
and UpdateService with a nil service pointer, which aborts. -/
theorem single_delegation {σ : Type} (h : StandardStorage σ) (ctx : Context) (w : World σ) :
    (∀ options : Ptr ListOptions, ∃ c : Call, c.method = Method.List
        ∧ (storage.ListServices ⟨some h⟩ ctx options w).2.calls = w.calls ++ [c]
        ∧ (storage.ListServices ⟨some h⟩ ctx options w).2.st = (h.List w.st ctx options).2)
    ∧ (∀ svc : Ptr Service, ∃ c : Call, c.method = Method.Create
        ∧ (storage.CreateService ⟨some h⟩ ctx svc w).2.calls = w.calls ++ [c]
        ∧ (storage.CreateService ⟨some h⟩ ctx svc w).2.st
          = (h.Create w.st ctx (Object.service svc)).2)
    ∧ (∀ (name : String) (options : Ptr GetOptions), ∃ c : Call, c.method = Method.Get
        ∧ (storage.GetService ⟨some h⟩ ctx name options w).2.calls = w.calls ++ [c]
        ∧ (storage.GetService ⟨some h⟩ ctx name options w).2.st
          = (h.Get w.st ctx name options).2)
    ∧ (∀ name : String, ∃ c : Call, c.method = Method.Delete
        ∧ (storage.DeleteService ⟨some h⟩ ctx name w).2.calls = w.calls ++ [c]
        ∧ (storage.DeleteService ⟨some h⟩ ctx name w).2.st
          = (h.Delete w.st ctx name Ptr.nil).2)
    ∧ (∀ (addr : Nat) (svc : Service), ∃ c : Call, c.method = Method.Update
        ∧ (storage.UpdateService ⟨some h⟩ ctx (Ptr.ref addr svc) w).2.calls = w.calls ++ [c]
        ∧ (storage.UpdateService ⟨some h⟩ ctx (Ptr.ref addr svc) w).2.st
          = (h.Update w.st ctx svc.Name
              (rest.DefaultUpdatedObjectInfo (Object.service (Ptr.ref addr svc)) api.Scheme)).2)
    ∧ ((storage.UpdateService ⟨some h⟩ ctx Ptr.nil w).1 = Outcome.panic Panic.nilDereference
        ∧ (storage.UpdateService ⟨some h⟩ ctx Ptr.nil w).2.calls = w.calls
        ∧ (storage.UpdateService ⟨some h⟩ ctx Ptr.nil w).2.st = w.st)
    ∧ (∀ options : Ptr ListOptions, ∃ c : Call, c.method = Method.Watch
        ∧ (storage.WatchServices ⟨some h⟩ ctx options w).2.calls = w.calls ++ [c]
        ∧ (storage.WatchServices ⟨some h⟩ ctx options w).2.st = (h.Watch w.st ctx options).2)
    ∧ (∀ (exporter : Exporter σ) (name : String) (options : ExportOptions),
        h.asExporter = some exporter → ∃ c : Call, c.method = Method.Export
        ∧ (storage.ExportService ⟨some h⟩ ctx name options w).2.calls = w.calls ++ [c]
        ∧ (storage.ExportService ⟨some h⟩ ctx name options w).2.st
          = (exporter.Export w.st ctx name options).2)
    ∧ (∀ (name : String) (options : ExportOptions), h.asExporter = none →
        (storage.ExportService ⟨some h⟩ ctx name options w).2.calls = w.calls
        ∧ (storage.ExportService ⟨some h⟩ ctx name options w).2.st = w.st) :=
  ⟨fun options => ⟨Call.List ctx options, rfl, ListServices_world h ctx options w⟩,
   fun svc => ⟨Call.Create ctx (Object.service svc), rfl, CreateService_world h ctx svc w⟩,
   fun name options => ⟨Call.Get ctx name options, rfl, GetService_world h ctx name options w⟩,
   fun name => ⟨Call.Delete ctx name Ptr.nil, rfl, DeleteService_world h ctx name w⟩,
   fun addr svc =>
     ⟨Call.Update ctx svc.Name
        (rest.DefaultUpdatedObjectInfo (Object.service (Ptr.ref addr svc)) api.Scheme),
      rfl, UpdateService_world h ctx addr svc w⟩,
   UpdateService_nil ⟨some h⟩ ctx w,
   fun options => ⟨Call.Watch ctx options, rfl, WatchServices_world h ctx options w⟩,
   fun exporter name options hex =>
     ⟨Call.Export ctx name options, rfl,
      ExportService_world ⟨some h⟩ exporter hex ctx name options w⟩,
   fun name options hex => (ExportService_unsupported ⟨some h⟩ hex ctx name options w).2⟩

/-- Witness of C9, amended: with the export capability ExportService reaches the
delegate once (its call counter moves from 0 to 1); without it, not at all. -/
theorem single_delegation_witness :
    (storage.ExportService
        ⟨some (cannedStorage (Object.service objA) false WatchInterface.nil none true)⟩
        ctxA "svc-a" ⟨true, false⟩ worldZero).2.st = 1
    ∧ (storage.ExportService
        ⟨some (cannedStorage (Object.service objA) false WatchInterface.nil none false)⟩
        ctxA "svc-a" ⟨true, false⟩ worldZero).2.st = 0 :=
  ⟨Exists.elim ((single_delegation
      (cannedStorage (Object.service objA) false WatchInterface.nil none true)
      ctxA worldZero).2.2.2.2.2.2.2.1 _ "svc-a" ⟨true, false⟩ rfl) (fun _ hc => hc.2.2),
   ((single_delegation
      (cannedStorage (Object.service objA) false WatchInterface.nil none false)
      ctxA worldZero).2.2.2.2.2.2.2.2 "svc-a" ⟨true, false⟩ rfl).2⟩

/-! ## Construction -/

/-- Counterexample to C7: the nil handle has none of the required capabilities
(listing through it aborts), yet NewRegistry returns an adapter for it and does
not abort. -/
theorem NewRegistry_nil_handle_returns :
    NewRegistry (none : Option (StandardStorage Nat)) = Outcome.ret { StandardStorage := none }
    ∧ (∀ p : Panic, NewRegistry (none : Option (StandardStorage Nat)) ≠ Outcome.panic p)
    ∧ (storage.ListServices (storage.mk (none : Option (StandardStorage Nat)))
        ctxA Ptr.nil worldZero).1 = Outcome.panic Panic.nilDereference :=
  ⟨rfl, fun _ hp => Outcome.noConfusion hp, rfl⟩

/-- C7, amended: NewRegistry checks no capability and never aborts: for every
value of the handle type, the nil handle included, it returns an adapter holding
exactly that handle.  A handle without list, get, create, update, delete or
watch cannot be passed other than as nil, and an adapter over the nil handle
aborts later, at the first list, create, get, delete, update or watch call,
before any delegate method is invoked. -/
theorem NewRegistry_never_aborts {σ : Type} (s : Option (StandardStorage σ)) (ctx : Context)
    (w : World σ) :
    NewRegistry s = Outcome.ret { StandardStorage := s }
    ∧ (∀ p : Panic, NewRegistry s ≠ Outcome.panic p)
    ∧ (∀ options : Ptr ListOptions,
        (storage.ListServices (storage.mk (none : Option (StandardStorage σ))) ctx options w).1
            = Outcome.panic Panic.nilDereference
          ∧ (storage.ListServices (storage.mk (none : Option (StandardStorage σ)))
              ctx options w).2.calls = w.calls)
    ∧ (∀ svc : Ptr Service,
        (storage.CreateService (storage.mk (none : Option (StandardStorage σ))) ctx svc w).1
            = Outcome.panic Panic.nilDereference
          ∧ (storage.CreateService (storage.mk (none : Option (StandardStorage σ)))
              ctx svc w).2.calls = w.calls)
    ∧ (∀ (name : String) (options : Ptr GetOptions),
        (storage.GetService (storage.mk (none : Option (StandardStorage σ)))
              ctx name options w).1 = Outcome.panic Panic.nilDereference
          ∧ (storage.GetService (storage.mk (none : Option (StandardStorage σ)))
              ctx name options w).2.calls = w.calls)
    ∧ (∀ name : String,
        (storage.DeleteService (storage.mk (none : Option (StandardStorage σ))) ctx name w).1
            = Outcome.panic Panic.nilDereference
          ∧ (storage.DeleteService (storage.mk (none : Option (StandardStorage σ)))
              ctx name w).2.calls = w.calls)
    ∧ (∀ svc : Ptr Service,
        (storage.UpdateService (storage.mk (none : Option (StandardStorage σ))) ctx svc w).1
            = Outcome.panic Panic.nilDereference
          ∧ (storage.UpdateService (storage.mk (none : Option (StandardStorage σ)))
              ctx svc w).2.calls = w.calls)
    ∧ (∀ options : Ptr ListOptions,
        (storage.WatchServices (storage.mk (none : Option (StandardStorage σ)))
              ctx options w).1 = Outcome.panic Panic.nilDereference
          ∧ (storage.WatchServices (storage.mk (none : Option (StandardStorage σ)))
              ctx options w).2.calls = w.calls) := by
  refine ⟨rfl, fun _ hp => Outcome.noConfusion hp, ?_, ?_, ?_, ?_, ?_, ?_⟩
  · intro options
    simp [storage.ListServices]
  · intro svc
    simp [storage.CreateService]
  · intro name options
    simp [storage.GetService]
  · intro name
    simp [storage.DeleteService]
  · intro svc
    cases svc <;> simp [storage.UpdateService]
  · intro options
    simp [storage.WatchServices]

end ServiceRegistry
